import Mathlib

/-!
Shallow embedding of the ChartState class from src/chartState.js.

JavaScript numbers are IEEE-754 doubles. The only operations the source
applies to an entry value are the comparisons `value > 100` and
`value < 0`, so a value is modelled as either NaN, for which every such
comparison is false, or a rational number, for which the comparison is
the rational one. Ids are strings; the JavaScript trim used by the
empty-id check is modelled on the character list of the string.

Subscriber callbacks are opaque to the container: each is modelled by
the Nat token under which it was registered, and a notification event is
the pair of that token with the snapshot value passed to the callback.
Every operation returns the resulting container state, the error it
raised (if any), and the list of notification events it issued, in
order. An exception thrown mid-way through `updateData` leaves whatever
mutations the live array had already received, exactly as in the source,
where the array is cleared and then pushed to in place.
-/

/-- A JavaScript number, restricted to what the source observes of it:
NaN, or a finite value modelled as a rational. -/
inductive JSNum where
  | nan : JSNum
  | num : ℚ → JSNum
deriving DecidableEq

/-- JavaScript strict greater-than on numbers: false whenever either side is NaN. -/
def jsGt : JSNum → JSNum → Bool
  | JSNum.num a, JSNum.num b => decide (b < a)
  | _, _ => false

/-- JavaScript strict less-than on numbers: false whenever either side is NaN. -/
def jsLt : JSNum → JSNum → Bool
  | JSNum.num a, JSNum.num b => decide (a < b)
  | _, _ => false

/-- JavaScript less-or-equal on numbers: false whenever either side is NaN. -/
def jsLe : JSNum → JSNum → Bool
  | JSNum.num a, JSNum.num b => decide (a ≤ b)
  | _, _ => false

/-- The whitespace characters removed by the JavaScript trim as far as the
ids in this development exercise it (ASCII whitespace). -/
def isJsWs (c : Char) : Bool :=
  c == ' ' || c == '\t' || c == '\n' || c == '\r'

/-- Model of JavaScript String.prototype.trim: drop whitespace from both ends. -/
def jsTrim (s : String) : String :=
  String.mk (((s.data.dropWhile isJsWs).reverse.dropWhile isJsWs).reverse)

/-- One labeled data point, as stored in the chartData array. -/
structure Entry where
  id : String
  value : JSNum
deriving DecidableEq

/-- The four validation failures thrown by pushValidItem, one per throw
site; the duplicate error carries the offending id, which the source
interpolates into its message. -/
inductive ValidationError where
  | duplicateId : String → ValidationError
  | emptyId : ValidationError
  | valueTooHigh : ValidationError
  | valueTooLow : ValidationError
deriving DecidableEq

instance {ε α : Type} [DecidableEq ε] [DecidableEq α] : DecidableEq (Except ε α) := fun x y =>
  match x, y with
  | Except.ok a, Except.ok b =>
    if h : a = b then Decidable.isTrue (by rw [h]) else Decidable.isFalse (by simp [h])
  | Except.error a, Except.error b =>
    if h : a = b then Decidable.isTrue (by rw [h]) else Decidable.isFalse (by simp [h])
  | Except.ok _, Except.error _ => Decidable.isFalse (by simp)
  | Except.error _, Except.ok _ => Decidable.isFalse (by simp)

/-- The private fields of a ChartState instance: the chartData array and
the subscribers array (callbacks as opaque registration tokens). -/
structure ChartState where
  chartData : List Entry
  subscribers : List Nat
deriving DecidableEq

/-- The outcome of one mutation call: the container state afterwards, the
error raised (none on success), and the notification events issued. -/
structure OpResult where
  state : ChartState
  error : Option ValidationError
  events : List (Nat × List Entry)
deriving DecidableEq

namespace ChartState

/-- The constructor: both private arrays start empty. -/
def init : ChartState :=
  { chartData := [], subscribers := [] }

/-- getData returns a copy of chartData; as a value it equals chartData.
The aliasing aspect of the copy is modelled separately on a small heap. -/
def getData (s : ChartState) : List Entry :=
  s.chartData

/-- pushValidItem from the source: the duplicate-id check against the
current array, then the empty-id check (the falsy test on the id followed
by the trim test), then the upper-bound check, then the lower-bound
check; if all pass the item is pushed onto the end of the array. -/
def pushValidItem (chartData : List Entry) (newItem : Entry) : Except ValidationError (List Entry) :=
  if chartData.any (fun item => item.id == newItem.id) then
    Except.error (ValidationError.duplicateId newItem.id)
  else if newItem.id == "" || jsTrim newItem.id == "" then
    Except.error ValidationError.emptyId
  else if jsGt newItem.value (JSNum.num 100) then
    Except.error ValidationError.valueTooHigh
  else if jsLt newItem.value (JSNum.num 0) then
    Except.error ValidationError.valueTooLow
  else
    Except.ok (chartData ++ [newItem])

/-- The private notify method: call every subscriber in registration
order, each with its own getData snapshot; all snapshots are equal in
value to the current chartData. -/
def notify (s : ChartState) : List (Nat × List Entry) :=
  s.subscribers.map (fun cb => (cb, getData s))

/-- The forEach loop of updateData: push each candidate in order through
pushValidItem; the first failure aborts the loop, keeping the pushes
already performed, exactly as a thrown exception does in the source. -/
def pushAll : List Entry → List Entry → List Entry × Option ValidationError
  | acc, [] => (acc, none)
  | acc, item :: rest =>
    match pushValidItem acc item with
    | Except.ok acc2 => pushAll acc2 rest
    | Except.error e => (acc, some e)

/-- updateData from the source: chartData.length is set to 0 first, then
every candidate is pushed through pushValidItem; notify runs only when
the whole loop completed without an error. -/
def updateData (s : ChartState) (newData : List Entry) : OpResult :=
  match pushAll [] newData with
  | (acc, none) =>
    let s2 : ChartState := { s with chartData := acc }
    { state := s2, error := none, events := notify s2 }
  | (acc, some e) =>
    { state := { s with chartData := acc }, error := some e, events := [] }

/-- addItem from the source: one pushValidItem against the live array,
then notify; a failure leaves the array as it was and skips notify. -/
def addItem (s : ChartState) (newItem : Entry) : OpResult :=
  match pushValidItem s.chartData newItem with
  | Except.ok d =>
    let s2 : ChartState := { s with chartData := d }
    { state := s2, error := none, events := notify s2 }
  | Except.error e => { state := s, error := some e, events := [] }

/-- subscribe from the source: append the callback to the subscribers array. -/
def subscribe (s : ChartState) (cb : Nat) : ChartState :=
  { s with subscribers := s.subscribers ++ [cb] }

/-- The states a container can be in after any sequence of calls to its
public operations starting from the constructor; failed mutations keep
whatever state the call left behind. getData does not change the state. -/
inductive Reachable : ChartState → Prop where
  | init : Reachable ChartState.init
  | update (s : ChartState) (newData : List Entry) :
      Reachable s → Reachable (updateData s newData).state
  | add (s : ChartState) (newItem : Entry) :
      Reachable s → Reachable (addItem s newItem).state
  | sub (s : ChartState) (cb : Nat) :
      Reachable s → Reachable (subscribe s cb)

end ChartState

/-- Range condition as the claimed invariant words it, zero at most the
value and the value at most one hundred, evaluated with the JavaScript
comparison (so NaN satisfies neither side). -/
def specInRange (v : JSNum) : Prop :=
  jsLe (JSNum.num 0) v = true ∧ jsLe v (JSNum.num 100) = true

/-- The validation algorithm exactly as the spec words it, step by step:
first a duplicate id among the accepted entries, then an empty or
all-whitespace id, then a value above 100, then a value below 0, and
otherwise the candidate is appended to the working set. Written from the
spec wording to be compared with pushValidItem. -/
def specValidate (accepted : List Entry) (c : Entry) : Except ValidationError (List Entry) :=
  if ∃ x ∈ accepted, x.id = c.id then
    Except.error (ValidationError.duplicateId c.id)
  else if c.id.data.all isJsWs = true then
    Except.error ValidationError.emptyId
  else if jsGt c.value (JSNum.num 100) = true then
    Except.error ValidationError.valueTooHigh
  else if jsLt c.value (JSNum.num 0) = true then
    Except.error ValidationError.valueTooLow
  else
    Except.ok (accepted ++ [c])

/-- Invalidity of an entry against a dataset as the spec words the rules:
a duplicate id, an empty or all-whitespace id, or a value tripping one of
the two range checks of the validation algorithm. -/
def specInvalid (d : List Entry) (e : Entry) : Prop :=
  (∃ x ∈ d, x.id = e.id) ∨ e.id.data.all isJsWs = true ∨
    jsGt e.value (JSNum.num 100) = true ∨ jsLt e.value (JSNum.num 0) = true

/-- Well-formedness of a dataset: pairwise distinct ids, every id
non-empty after trimming, and every value passing both range checks of
the source (for values other than NaN this is membership in the closed
range from 0 to 100). -/
def WfData (d : List Entry) : Prop :=
  d.Pairwise (fun a b => a.id ≠ b.id) ∧
    ∀ e ∈ d, jsTrim e.id ≠ "" ∧ jsGt e.value (JSNum.num 100) = false ∧
      jsLt e.value (JSNum.num 0) = false

/-- Read the array stored at reference r in a heap of arrays; the heap
models the JavaScript object store so that the aliasing content of
getData can be stated. -/
def readRef (h : List (List Entry)) (r : Nat) : List Entry :=
  h.getD r []

/-- Overwrite the array stored at reference r with new contents,
modelling external mutation of an array object. -/
def writeRef (h : List (List Entry)) (r : Nat) (v : List Entry) : List (List Entry) :=
  h.set r v

/-- getData at the heap level: the array spread in the source allocates a
fresh array holding the same entries as the internal one, and the method
returns the fresh reference. -/
def getDataCopy (h : List (List Entry)) (dataRef : Nat) : Nat × List (List Entry) :=
  (h.length, h ++ [readRef h dataRef])

/-! Helper lemmas about the string checks. -/

lemma string_mk_eq_empty_iff (l : List Char) : String.mk l = "" ↔ l = [] := by
  simp [String.ext_iff]

lemma forall_mem_dropWhile_iff (p : Char → Bool) (l : List Char) :
    (∀ x ∈ l.dropWhile p, p x) ↔ (∀ x ∈ l, p x) := by
  constructor
  · intro h x hx
    rw [← List.takeWhile_append_dropWhile p l] at hx
    rcases List.mem_append.mp hx with h1 | h2
    · exact List.mem_takeWhile_imp h1
    · exact h x h2
  · intro h x hx
    exact h x ((List.dropWhile_sublist _).subset hx)

lemma jsTrim_eq_empty_iff (s : String) : jsTrim s = "" ↔ s.data.all isJsWs = true := by
  rw [jsTrim, string_mk_eq_empty_iff, List.reverse_eq_nil_iff, List.dropWhile_eq_nil_iff]
  simp only [List.mem_reverse]
  rw [forall_mem_dropWhile_iff, List.all_eq_true]

lemma empty_check_iff (s : String) : (s == "" || jsTrim s == "") = true ↔ jsTrim s = "" := by
  constructor
  · intro h
    simp only [Bool.or_eq_true, beq_iff_eq] at h
    rcases h with h | h
    · subst h; rfl
    · exact h
  · intro h
    simp [h]

lemma dup_check_iff (d : List Entry) (e : Entry) :
    d.any (fun x => x.id == e.id) = true ↔ ∃ x ∈ d, x.id = e.id := by
  simp [List.any_eq_true]

namespace ChartState

lemma pushValidItem_ok_eq {acc : List Entry} {e : Entry} {l : List Entry}
    (h : pushValidItem acc e = Except.ok l) : l = acc ++ [e] := by
  unfold pushValidItem at h
  split_ifs at h
  injection h with h2
  exact h2.symm

lemma pushValidItem_conds_of_ok {acc : List Entry} {e : Entry} {l : List Entry}
    (h : pushValidItem acc e = Except.ok l) :
    (¬ ∃ x ∈ acc, x.id = e.id) ∧ jsTrim e.id ≠ "" ∧
      jsGt e.value (JSNum.num 100) = false ∧ jsLt e.value (JSNum.num 0) = false := by
  unfold pushValidItem at h
  split_ifs at h with h1 h2 h3 h4
  refine ⟨fun hc => h1 ((dup_check_iff acc e).mpr hc), fun hc => h2 ((empty_check_iff e.id).mpr hc), ?_, ?_⟩
  · exact Bool.not_eq_true _ |>.mp h3
  · exact Bool.not_eq_true _ |>.mp h4

lemma pushValidItem_ok_of {acc : List Entry} {e : Entry}
    (h1 : ¬ ∃ x ∈ acc, x.id = e.id) (h2 : jsTrim e.id ≠ "")
    (h3 : jsGt e.value (JSNum.num 100) = false) (h4 : jsLt e.value (JSNum.num 0) = false) :
    pushValidItem acc e = Except.ok (acc ++ [e]) := by
  unfold pushValidItem
  have c1 : acc.any (fun x => x.id == e.id) = false := by
    rw [← Bool.not_eq_true]
    exact fun hc => h1 ((dup_check_iff acc e).mp hc)
  have c2 : (e.id == "" || jsTrim e.id == "") = false := by
    rw [← Bool.not_eq_true]
    exact fun hc => h2 ((empty_check_iff e.id).mp hc)
  rw [c1, c2, h3, h4]
  rfl

lemma pushValidItem_error_dup_iff (acc : List Entry) (e : Entry) :
    pushValidItem acc e = Except.error (ValidationError.duplicateId e.id) ↔
      ∃ x ∈ acc, x.id = e.id := by
  constructor
  · intro h
    unfold pushValidItem at h
    split_ifs at h <;> simp_all [dup_check_iff]
  · intro hc
    unfold pushValidItem
    simp [(dup_check_iff acc e).mpr hc]

lemma pushValidItem_isError_iff (acc : List Entry) (e : Entry) :
    (∃ err, pushValidItem acc e = Except.error err) ↔ specInvalid acc e := by
  unfold pushValidItem specInvalid
  split_ifs with h1 h2 h3 h4
  · simp [dup_check_iff acc e |>.mp h1]
  · simp [(jsTrim_eq_empty_iff e.id).mp ((empty_check_iff e.id).mp h2)]
  · simp [h3]
  · simp [h4]
  · constructor
    · rintro ⟨err, herr⟩
      exact absurd herr (by simp)
    · rintro (hc | hc | hc | hc)
      · exact absurd ((dup_check_iff acc e).mpr hc) h1
      · exact absurd ((empty_check_iff e.id).mpr ((jsTrim_eq_empty_iff e.id).mpr hc)) h2
      · exact absurd hc h3
      · exact absurd hc h4

end ChartState

namespace ChartState

lemma pushAll_nil (acc : List Entry) : pushAll acc [] = (acc, none) := rfl

lemma pushAll_cons (acc : List Entry) (item : Entry) (rest : List Entry) :
    pushAll acc (item :: rest) =
      match pushValidItem acc item with
      | Except.ok acc2 => pushAll acc2 rest
      | Except.error e => (acc, some e) := rfl

lemma pushAll_ok_eq :
    ∀ (rest acc res : List Entry), pushAll acc rest = (res, none) → res = acc ++ rest := by
  intro rest
  induction rest with
  | nil =>
    intro acc res h
    rw [pushAll_nil] at h
    simp_all
  | cons item tl ih =>
    intro acc res h
    rw [pushAll_cons] at h
    cases hp : pushValidItem acc item with
    | ok acc2 =>
      rw [hp] at h
      have h2 := ih acc2 res h
      rw [pushValidItem_ok_eq hp] at h2
      simp [h2]
    | error e =>
      rw [hp] at h
      simp_all

lemma pushAll_error_spec :
    ∀ (rest acc res : List Entry) (e : ValidationError),
      pushAll acc rest = (res, some e) →
      ∃ k, ∃ hk : k < rest.length,
        res = acc ++ rest.take k ∧
        pushAll acc (rest.take k) = (res, none) ∧
        pushValidItem res (rest.get ⟨k, hk⟩) = Except.error e := by
  intro rest
  induction rest with
  | nil =>
    intro acc res e h
    rw [pushAll_nil] at h
    simp_all
  | cons item tl ih =>
    intro acc res e h
    rw [pushAll_cons] at h
    cases hp : pushValidItem acc item with
    | ok acc2 =>
      rw [hp] at h
      obtain ⟨k, hk, hres, hnone, herr⟩ := ih acc2 res e h
      have hacc2 := pushValidItem_ok_eq hp
      refine ⟨k + 1, Nat.succ_lt_succ hk, ?_, ?_, ?_⟩
      · rw [hres, hacc2]
        simp [List.take_succ_cons]
      · rw [List.take_succ_cons, pushAll_cons, hp]
        exact hnone
      · exact herr
    | error e2 =>
      rw [hp] at h
      rw [Prod.mk.injEq] at h
      obtain ⟨h1, h2⟩ := h
      subst h1
      injection h2 with h2
      subst h2
      refine ⟨0, Nat.succ_pos _, by simp, pushAll_nil acc, ?_⟩
      simpa using hp

lemma pushAll_of_pointwise :
    ∀ (rest acc : List Entry),
      (∀ k (hk : k < rest.length),
        pushValidItem (acc ++ rest.take k) (rest.get ⟨k, hk⟩) =
          Except.ok (acc ++ rest.take (k + 1))) →
      pushAll acc rest = (acc ++ rest, none) := by
  intro rest
  induction rest with
  | nil =>
    intro acc _
    simp [pushAll_nil]
  | cons item tl ih =>
    intro acc h
    have h0 := h 0 (Nat.succ_pos _)
    have h0' : pushValidItem acc item = Except.ok (acc ++ [item]) := by
      simpa using h0
    have hpre : ∀ k (hk : k < tl.length),
        pushValidItem ((acc ++ [item]) ++ tl.take k) (tl.get ⟨k, hk⟩) =
          Except.ok ((acc ++ [item]) ++ tl.take (k + 1)) := by
      intro k hk
      have hk1 := h (k + 1) (Nat.succ_lt_succ hk)
      simp only [List.take_succ_cons, List.get_cons_succ] at hk1
      simpa [List.append_assoc] using hk1
    have htl := ih (acc ++ [item]) hpre
    rw [pushAll_cons, h0']
    show pushAll (acc ++ [item]) tl = (acc ++ item :: tl, none)
    rw [htl]
    simp

end ChartState

namespace ChartState

lemma wf_nil : WfData [] := by
  simp [WfData]

lemma wf_push {acc : List Entry} {e : Entry} {l : List Entry}
    (hw : WfData acc) (h : pushValidItem acc e = Except.ok l) : WfData l := by
  obtain ⟨h1, h2, h3, h4⟩ := pushValidItem_conds_of_ok h
  rw [pushValidItem_ok_eq h]
  constructor
  · rw [List.pairwise_append]
    refine ⟨hw.1, by simp, ?_⟩
    intro a ha b hb
    simp only [List.mem_singleton] at hb
    subst hb
    exact fun hab => h1 ⟨a, ha, hab⟩
  · intro x hx
    rcases List.mem_append.mp hx with hx | hx
    · exact hw.2 x hx
    · simp only [List.mem_singleton] at hx
      subst hx
      exact ⟨h2, h3, h4⟩

lemma wf_pushAll : ∀ (rest acc : List Entry), WfData acc → WfData (pushAll acc rest).1 := by
  intro rest
  induction rest with
  | nil =>
    intro acc hw
    simpa [pushAll_nil] using hw
  | cons item tl ih =>
    intro acc hw
    rw [pushAll_cons]
    cases hp : pushValidItem acc item with
    | ok acc2 => exact ih acc2 (wf_push hw hp)
    | error e => simpa using hw

lemma updateData_of_ok {s : ChartState} {nd acc : List Entry}
    (h : pushAll [] nd = (acc, none)) :
    updateData s nd = { state := { s with chartData := acc }, error := none,
                        events := notify { s with chartData := acc } } := by
  unfold updateData
  rw [h]

lemma updateData_of_error {s : ChartState} {nd acc : List Entry} {e : ValidationError}
    (h : pushAll [] nd = (acc, some e)) :
    updateData s nd = { state := { s with chartData := acc }, error := some e,
                        events := [] } := by
  unfold updateData
  rw [h]

lemma addItem_of_ok {s : ChartState} {e : Entry} {d : List Entry}
    (h : pushValidItem s.chartData e = Except.ok d) :
    addItem s e = { state := { s with chartData := d }, error := none,
                    events := notify { s with chartData := d } } := by
  unfold addItem
  rw [h]

lemma addItem_of_error {s : ChartState} {e : Entry} {err : ValidationError}
    (h : pushValidItem s.chartData e = Except.error err) :
    addItem s e = { state := s, error := some err, events := [] } := by
  unfold addItem
  rw [h]

lemma reachable_wf : ∀ s : ChartState, Reachable s → WfData s.chartData := by
  intro s h
  induction h with
  | init => exact wf_nil
  | update s2 nd _ _ =>
    cases hp : pushAll [] nd with
    | mk acc oe =>
      cases oe with
      | none =>
        rw [updateData_of_ok hp]
        have := wf_pushAll nd [] wf_nil
        rw [hp] at this
        exact this
      | some e =>
        rw [updateData_of_error hp]
        have := wf_pushAll nd [] wf_nil
        rw [hp] at this
        exact this
  | add s2 e _ ih =>
    cases hp : pushValidItem s2.chartData e with
    | ok d =>
      rw [addItem_of_ok hp]
      exact wf_push ih hp
    | error err =>
      rw [addItem_of_error hp]
      exact ih
  | sub s2 cb _ ih => exact ih

end ChartState

lemma specInRange_of_checks {v : JSNum} (hne : v ≠ JSNum.nan)
    (h3 : jsGt v (JSNum.num 100) = false) (h4 : jsLt v (JSNum.num 0) = false) :
    specInRange v := by
  cases v with
  | nan => exact absurd rfl hne
  | num q =>
    simp only [jsGt, jsLt, decide_eq_false_iff_not, not_lt] at h3 h4
    simp [specInRange, jsLe, h3, h4]

/-- C1: the spec claims that a failing updateData leaves the previous
dataset unchanged. The source clears the live array before validating the
candidates one by one, so on the failing input below the pre-call dataset
is lost: starting from the reachable dataset holding the entry b with
value 1, updateData on the two entries sharing id a raises the
duplicate-id error, yet afterwards the dataset is the accepted prefix
holding only the first a entry, not the pre-call dataset. -/
theorem updateData_not_atomic :
    ChartState.Reachable (ChartState.init.addItem ⟨"b", JSNum.num 1⟩).state ∧
    (ChartState.init.addItem ⟨"b", JSNum.num 1⟩).state.chartData = [⟨"b", JSNum.num 1⟩] ∧
    (((ChartState.init.addItem ⟨"b", JSNum.num 1⟩).state).updateData
        [⟨"a", JSNum.num 50⟩, ⟨"a", JSNum.num 60⟩]).error =
      some (ValidationError.duplicateId "a") ∧
    (((ChartState.init.addItem ⟨"b", JSNum.num 1⟩).state).updateData
        [⟨"a", JSNum.num 50⟩, ⟨"a", JSNum.num 60⟩]).state.chartData =
      [⟨"a", JSNum.num 50⟩] ∧
    (((ChartState.init.addItem ⟨"b", JSNum.num 1⟩).state).updateData
        [⟨"a", JSNum.num 50⟩, ⟨"a", JSNum.num 60⟩]).state.chartData ≠
      [⟨"b", JSNum.num 1⟩] :=
  ⟨ChartState.Reachable.add _ _ ChartState.Reachable.init, by decide, by decide, by decide,
    by decide⟩

/-- C2: when updateData raises, no subscriber is notified, the subscriber
list is untouched, and the dataset afterwards is exactly the accepted
prefix of the candidate list: the candidates before the first invalid
one, all accepted when pushed in order, with the failing candidate
rejected against precisely that prefix; the previous dataset is
discarded. -/
theorem updateData_failure_keeps_accepted (s : ChartState) (newData : List Entry)
    (e : ValidationError) (h : (s.updateData newData).error = some e) :
    (s.updateData newData).events = [] ∧
    (s.updateData newData).state.subscribers = s.subscribers ∧
    ∃ k, ∃ hk : k < newData.length,
      (s.updateData newData).state.chartData = newData.take k ∧
      ChartState.pushAll [] (newData.take k) = (newData.take k, none) ∧
      ChartState.pushValidItem (newData.take k) (newData.get ⟨k, hk⟩) = Except.error e := by
  cases hp : ChartState.pushAll [] newData with
  | mk accd oe =>
    cases oe with
    | none =>
      rw [ChartState.updateData_of_ok hp] at h
      exact absurd h (by simp)
    | some e2 =>
      have he : e2 = e := by
        rw [ChartState.updateData_of_error hp] at h
        simpa using h
      subst he
      obtain ⟨k, hk, hres, hnone, herr⟩ :=
        ChartState.pushAll_error_spec newData [] accd e2 hp
      simp only [List.nil_append] at hres
      subst hres
      rw [ChartState.updateData_of_error hp]
      refine ⟨rfl, rfl, k, hk, rfl, ?_, herr⟩
      simpa using hnone

/-- Witness for C2: the duplicate batch on a fresh container raises and
notifies nobody. -/
theorem updateData_failure_keeps_accepted_wit :
    (ChartState.init.updateData [⟨"a", JSNum.num 1⟩, ⟨"a", JSNum.num 2⟩]).error =
      some (ValidationError.duplicateId "a") ∧
    (ChartState.init.updateData [⟨"a", JSNum.num 1⟩, ⟨"a", JSNum.num 2⟩]).events = [] :=
  ⟨by decide,
   (updateData_failure_keeps_accepted ChartState.init
      [⟨"a", JSNum.num 1⟩, ⟨"a", JSNum.num 2⟩]
      (ValidationError.duplicateId "a") (by decide)).1⟩

/-- C3 counterexample: the state reached by adding the entry with id n
and value NaN to a fresh container is reachable and stores that entry,
whose value fails the claimed range condition, so the claimed invariant
is false at a reachable state. -/
theorem invariant_nan_cex :
    ChartState.Reachable (ChartState.init.addItem ⟨"n", JSNum.nan⟩).state ∧
    (ChartState.init.addItem ⟨"n", JSNum.nan⟩).state.chartData = [⟨"n", JSNum.nan⟩] ∧
    ¬ specInRange JSNum.nan :=
  ⟨ChartState.Reachable.add _ _ ChartState.Reachable.init, by decide,
   by unfold specInRange; decide⟩

/-- C3 (amended): after any sequence of getData, subscribe, updateData
and addItem calls, whether each succeeded or raised, the dataset has
pairwise distinct ids, every id is non-empty after trimming, and every
value passes both range checks of the source; for every stored value
other than NaN this gives membership in the closed range 0 to 100, while
a stored NaN passes both checks without lying in the range. -/
theorem reachable_dataset_wf (s : ChartState) (h : ChartState.Reachable s) :
    WfData s.chartData ∧
      ∀ e ∈ s.chartData, e.value ≠ JSNum.nan → specInRange e.value := by
  have hw := ChartState.reachable_wf s h
  refine ⟨hw, ?_⟩
  intro e he hne
  obtain ⟨-, h3, h4⟩ := hw.2 e he
  exact specInRange_of_checks hne h3 h4

/-- Witness for C3 (amended) at a concrete reachable state. -/
theorem reachable_dataset_wf_wit :
    ChartState.Reachable (ChartState.init.addItem ⟨"x", JSNum.num 50⟩).state ∧
    (WfData (ChartState.init.addItem ⟨"x", JSNum.num 50⟩).state.chartData ∧
      ∀ e ∈ (ChartState.init.addItem ⟨"x", JSNum.num 50⟩).state.chartData,
        e.value ≠ JSNum.nan → specInRange e.value) :=
  ⟨ChartState.Reachable.add _ _ ChartState.Reachable.init,
   reachable_dataset_wf _ (ChartState.Reachable.add _ _ ChartState.Reachable.init)⟩

/-- C4: pushValidItem agrees with the validation algorithm as the spec
words it, check by check in the same order, so the first failing check
determines the error for a multiply-invalid entry; moreover the outcome
for a candidate depends only on the entries accepted before it, never on
later candidates, and on the concrete list a, b, a the batch fails on the
third candidate against the accepted first two, not on the first. -/
theorem validation_check_order :
    (∀ (accepted : List Entry) (c : Entry),
      ChartState.pushValidItem accepted c = specValidate accepted c) ∧
    (∀ (pre : List Entry) (c : Entry) (rest : List Entry) (err : ValidationError),
      ChartState.pushValidItem pre c = Except.error err →
        ChartState.pushAll pre (c :: rest) = (pre, some err)) ∧
    ChartState.pushAll [] [⟨"a", JSNum.num 1⟩, ⟨"b", JSNum.num 2⟩, ⟨"a", JSNum.num 3⟩] =
      ([⟨"a", JSNum.num 1⟩, ⟨"b", JSNum.num 2⟩], some (ValidationError.duplicateId "a")) := by
  refine ⟨?_, ?_, by decide⟩
  · intro acc c
    unfold ChartState.pushValidItem specValidate
    by_cases h1 : acc.any (fun x => x.id == c.id) = true
    · rw [if_pos h1, if_pos ((dup_check_iff acc c).mp h1)]
    · rw [if_neg h1, if_neg (fun hq => h1 ((dup_check_iff acc c).mpr hq))]
      by_cases h2 : (c.id == "" || jsTrim c.id == "") = true
      · rw [if_pos h2,
          if_pos ((jsTrim_eq_empty_iff c.id).mp ((empty_check_iff c.id).mp h2))]
      · rw [if_neg h2,
          if_neg (fun hq => h2 ((empty_check_iff c.id).mpr ((jsTrim_eq_empty_iff c.id).mpr hq)))]
  · intro pre c rest err h
    rw [ChartState.pushAll_cons, h]

/-- Witness for C4: a candidate duplicating an accepted id fails at once,
and the later candidates play no part in that outcome. -/
theorem validation_check_order_wit :
    ChartState.pushValidItem [⟨"a", JSNum.num 1⟩] ⟨"a", JSNum.num 3⟩ =
      Except.error (ValidationError.duplicateId "a") ∧
    ChartState.pushAll [⟨"a", JSNum.num 1⟩] [⟨"a", JSNum.num 3⟩, ⟨"c", JSNum.num 4⟩] =
      ([⟨"a", JSNum.num 1⟩], some (ValidationError.duplicateId "a")) :=
  ⟨by decide, validation_check_order.2.1 _ _ _ _ (by decide)⟩

/-- C5: addItem raises exactly when the entry is invalid against the
current dataset in the sense the spec words (duplicate id, empty or
all-whitespace id, or a value tripping a range check); a duplicate id in
particular raises the duplicate-id error; on failure the whole state is
unchanged and nobody is notified; on success the dataset is the previous
dataset with the entry appended and the subscriber list is unchanged. -/
theorem addItem_validates (s : ChartState) (e : Entry) :
    ((s.addItem e).error.isSome ↔ specInvalid s.chartData e) ∧
    ((∃ x ∈ s.chartData, x.id = e.id) →
      (s.addItem e).error = some (ValidationError.duplicateId e.id)) ∧
    ((s.addItem e).error.isSome → (s.addItem e).state = s ∧ (s.addItem e).events = []) ∧
    ((s.addItem e).error = none →
      (s.addItem e).state.chartData = s.chartData ++ [e] ∧
      (s.addItem e).state.subscribers = s.subscribers) := by
  cases hp : ChartState.pushValidItem s.chartData e with
  | ok d =>
    rw [ChartState.addItem_of_ok hp]
    have hnotinv : ¬ specInvalid s.chartData e := by
      intro hinv
      obtain ⟨err, herr⟩ := (ChartState.pushValidItem_isError_iff s.chartData e).mpr hinv
      rw [hp] at herr
      exact absurd herr (by simp)
    refine ⟨by simpa using hnotinv, ?_, ?_, ?_⟩
    · intro hdup
      have hd := (ChartState.pushValidItem_error_dup_iff s.chartData e).mpr hdup
      rw [hp] at hd
      exact absurd hd (by simp)
    · intro hs
      exact absurd hs (by simp)
    · intro _
      exact ⟨ChartState.pushValidItem_ok_eq hp, rfl⟩
  | error err =>
    rw [ChartState.addItem_of_error hp]
    have hinv : specInvalid s.chartData e :=
      (ChartState.pushValidItem_isError_iff s.chartData e).mp ⟨err, hp⟩
    refine ⟨by simpa using hinv, ?_, fun _ => ⟨rfl, rfl⟩, ?_⟩
    · intro hdup
      have hd := (ChartState.pushValidItem_error_dup_iff s.chartData e).mpr hdup
      rw [hp] at hd
      injection hd with hd
      simp [hd]
    · intro hnone
      exact absurd hnone (by simp)

/-- Witness for C5: adding an entry whose id x is already stored fails
with the duplicate-id error. -/
theorem addItem_validates_wit :
    (∃ x ∈ (ChartState.init.addItem ⟨"x", JSNum.num 50⟩).state.chartData,
      x.id = (⟨"x", JSNum.num 10⟩ : Entry).id) ∧
    ((ChartState.init.addItem ⟨"x", JSNum.num 50⟩).state.addItem
        ⟨"x", JSNum.num 10⟩).error =
      some (ValidationError.duplicateId (⟨"x", JSNum.num 10⟩ : Entry).id) ∧
    ((ChartState.init.addItem ⟨"x", JSNum.num 50⟩).state.addItem
        ⟨"x", JSNum.num 10⟩).state.chartData = [⟨"x", JSNum.num 50⟩] :=
  ⟨by decide,
   (addItem_validates (ChartState.init.addItem ⟨"x", JSNum.num 50⟩).state
      ⟨"x", JSNum.num 10⟩).2.1 (by decide),
   by decide⟩

/-- C6: on every successful addItem or updateData, the subscriber list is
what it was before the call, and the events issued are exactly one per
registered subscriber, in registration order, each carrying a snapshot
equal in value to the post-mutation dataset. -/
theorem mutation_notifies_subscribers (s : ChartState) (e : Entry) (newData : List Entry) :
    ((s.addItem e).error = none →
      (s.addItem e).state.subscribers = s.subscribers ∧
      (s.addItem e).events =
        s.subscribers.map (fun cb => (cb, (s.addItem e).state.chartData))) ∧
    ((s.updateData newData).error = none →
      (s.updateData newData).state.subscribers = s.subscribers ∧
      (s.updateData newData).events =
        s.subscribers.map (fun cb => (cb, (s.updateData newData).state.chartData))) := by
  constructor
  · intro h
    cases hp : ChartState.pushValidItem s.chartData e with
    | ok d =>
      rw [ChartState.addItem_of_ok hp]
      exact ⟨rfl, rfl⟩
    | error err =>
      rw [ChartState.addItem_of_error hp] at h
      exact absurd h (by simp)
  · intro h
    cases hp : ChartState.pushAll [] newData with
    | mk acc oe =>
      cases oe with
      | none =>
        rw [ChartState.updateData_of_ok hp]
        exact ⟨rfl, rfl⟩
      | some e2 =>
        rw [ChartState.updateData_of_error hp] at h
        exact absurd h (by simp)

/-- Witness for C6: with subscribers registered in the order 1, 2, 3, a
successful addItem issues the three events in that order, each with the
same post-mutation snapshot. -/
theorem mutation_notifies_subscribers_wit :
    ((((ChartState.init.subscribe 1).subscribe 2).subscribe 3).addItem
        ⟨"a", JSNum.num 5⟩).error = none ∧
    (((((ChartState.init.subscribe 1).subscribe 2).subscribe 3).addItem
          ⟨"a", JSNum.num 5⟩).state.subscribers =
        (((ChartState.init.subscribe 1).subscribe 2).subscribe 3).subscribers ∧
      ((((ChartState.init.subscribe 1).subscribe 2).subscribe 3).addItem
          ⟨"a", JSNum.num 5⟩).events =
        (((ChartState.init.subscribe 1).subscribe 2).subscribe 3).subscribers.map
          (fun cb =>
            (cb,
              ((((ChartState.init.subscribe 1).subscribe 2).subscribe 3).addItem
                  ⟨"a", JSNum.num 5⟩).state.chartData))) ∧
    ((((ChartState.init.subscribe 1).subscribe 2).subscribe 3).addItem
        ⟨"a", JSNum.num 5⟩).events =
      [(1, [⟨"a", JSNum.num 5⟩]), (2, [⟨"a", JSNum.num 5⟩]), (3, [⟨"a", JSNum.num 5⟩])] :=
  ⟨by decide,
   (mutation_notifies_subscribers (((ChartState.init.subscribe 1).subscribe 2).subscribe 3)
      ⟨"a", JSNum.num 5⟩ []).1 (by decide),
   by decide⟩

/-- C7: when every candidate is valid against the candidates accepted
before it, updateData succeeds, the dataset becomes exactly the candidate
list in order, the subscriber list is unchanged, and every subscriber is
notified with the new snapshot. -/
theorem updateData_success_replaces (s : ChartState) (newData : List Entry)
    (h : ∀ k (hk : k < newData.length),
      ChartState.pushValidItem (newData.take k) (newData.get ⟨k, hk⟩) =
        Except.ok (newData.take (k + 1))) :
    (s.updateData newData).error = none ∧
    (s.updateData newData).state.chartData = newData ∧
    (s.updateData newData).state.subscribers = s.subscribers ∧
    (s.updateData newData).events = s.subscribers.map (fun cb => (cb, newData)) := by
  have hall : ChartState.pushAll [] newData = (newData, none) := by
    have hpw := ChartState.pushAll_of_pointwise newData []
    simp only [List.nil_append] at hpw
    exact hpw h
  rw [ChartState.updateData_of_ok hall]
  exact ⟨rfl, rfl, rfl, rfl⟩

/-- Witness for C7: the two-entry batch a, b replaces the dataset in
order and notifies the registered subscriber; the empty batch on a fresh
container yields the empty dataset. -/
theorem updateData_success_replaces_wit :
    (∀ k (hk : k < ([⟨"a", JSNum.num 1⟩, ⟨"b", JSNum.num 2⟩] : List Entry).length),
      ChartState.pushValidItem (([⟨"a", JSNum.num 1⟩, ⟨"b", JSNum.num 2⟩] : List Entry).take k)
          (([⟨"a", JSNum.num 1⟩, ⟨"b", JSNum.num 2⟩] : List Entry).get ⟨k, hk⟩) =
        Except.ok (([⟨"a", JSNum.num 1⟩, ⟨"b", JSNum.num 2⟩] : List Entry).take (k + 1))) ∧
    ((ChartState.init.subscribe 7).updateData
        [⟨"a", JSNum.num 1⟩, ⟨"b", JSNum.num 2⟩]).state.chartData =
      [⟨"a", JSNum.num 1⟩, ⟨"b", JSNum.num 2⟩] ∧
    ((ChartState.init.subscribe 7).updateData
        [⟨"a", JSNum.num 1⟩, ⟨"b", JSNum.num 2⟩]).events =
      [(7, [⟨"a", JSNum.num 1⟩, ⟨"b", JSNum.num 2⟩])] ∧
    (ChartState.init.updateData []).state.chartData = [] ∧
    (ChartState.init.updateData []).error = none :=
  ⟨by decide,
   (updateData_success_replaces (ChartState.init.subscribe 7)
      [⟨"a", JSNum.num 1⟩, ⟨"b", JSNum.num 2⟩] (by decide)).2.1,
   by decide, by decide, by decide⟩

/-- C8: getData is a pure read: on the value model it returns exactly the
current dataset and touches nothing; on the heap model the spread
allocates a fresh reference distinct from the internal one, holding equal
contents, the internal array reads the same before and after the call,
and overwriting the returned array with any contents leaves every
subsequent read of the internal dataset unchanged. -/
theorem getData_pure_snapshot (h : List (List Entry)) (dataRef : Nat)
    (hd : dataRef < h.length) (v : List Entry) :
    (∀ s : ChartState, ChartState.getData s = s.chartData) ∧
    (getDataCopy h dataRef).1 ≠ dataRef ∧
    readRef (getDataCopy h dataRef).2 dataRef = readRef h dataRef ∧
    readRef (getDataCopy h dataRef).2 (getDataCopy h dataRef).1 = readRef h dataRef ∧
    readRef (writeRef (getDataCopy h dataRef).2 (getDataCopy h dataRef).1 v) dataRef =
      readRef h dataRef := by
  refine ⟨fun s => rfl, ?_, ?_, ?_, ?_⟩
  · show h.length ≠ dataRef
    omega
  · show (h ++ [readRef h dataRef]).getD dataRef [] = h.getD dataRef []
    exact List.getD_append h [readRef h dataRef] [] dataRef hd
  · show (h ++ [readRef h dataRef]).getD h.length [] = h.getD dataRef []
    simp [List.getD_eq_getElem?_getD, List.getElem?_concat_length, readRef]
  · show ((h ++ [readRef h dataRef]).set h.length v).getD dataRef [] = h.getD dataRef []
    have hne : h.length ≠ dataRef := by omega
    simp [List.getD_eq_getElem?_getD, List.getElem?_set_ne hne,
      List.getElem?_append_left hd]

/-- Witness for C8 on a one-array heap. -/
theorem getData_pure_snapshot_wit :
    (0 : Nat) < ([[⟨"a", JSNum.num 1⟩]] : List (List Entry)).length ∧
    readRef
        (writeRef (getDataCopy [[⟨"a", JSNum.num 1⟩]] 0).2
          (getDataCopy [[⟨"a", JSNum.num 1⟩]] 0).1 []) 0 =
      readRef [[⟨"a", JSNum.num 1⟩]] 0 :=
  ⟨by decide,
   (getData_pure_snapshot [[⟨"a", JSNum.num 1⟩]] 0 (by decide) []).2.2.2.2⟩

/-- C9: the duplicate check uses exact string equality on ids and entries
are stored verbatim: pushValidItem reports a duplicate exactly when some
stored entry has the identical id string, so after storing the id a, the
candidate with the id space-a passes both the duplicate and the empty-id
checks and the two entries coexist, each keeping its whitespace exactly
as supplied. -/
theorem duplicate_check_exact :
    (∀ (d : List Entry) (e : Entry),
      ChartState.pushValidItem d e = Except.error (ValidationError.duplicateId e.id) ↔
        ∃ x ∈ d, x.id = e.id) ∧
    ((ChartState.init.addItem ⟨"a", JSNum.num 50⟩).state.addItem
        ⟨" a", JSNum.num 30⟩).error = none ∧
    ((ChartState.init.addItem ⟨"a", JSNum.num 50⟩).state.addItem
        ⟨" a", JSNum.num 30⟩).state.chartData =
      [⟨"a", JSNum.num 50⟩, ⟨" a", JSNum.num 30⟩] :=
  ⟨ChartState.pushValidItem_error_dup_iff, by decide, by decide⟩

/-- Witness for C9: an identical id is reported as a duplicate. -/
theorem duplicate_check_exact_wit :
    ChartState.pushValidItem [⟨"a", JSNum.num 50⟩] ⟨"a", JSNum.num 60⟩ =
      Except.error (ValidationError.duplicateId (⟨"a", JSNum.num 60⟩ : Entry).id) :=
  (duplicate_check_exact.1 [⟨"a", JSNum.num 50⟩] ⟨"a", JSNum.num 60⟩).mpr
    ⟨⟨"a", JSNum.num 50⟩, by decide, by decide⟩

/-- C10: the range validation only asks whether the value is above 100 or
below 0; under the JavaScript comparison semantics NaN answers no to
both while also failing the direct closed-range condition, so addItem of
a NaN value under a fresh non-empty id succeeds and stores the entry with
its NaN value. -/
theorem range_check_accepts_nan (s : ChartState) (newId : String)
    (h1 : ∀ x ∈ s.chartData, x.id ≠ newId) (h2 : jsTrim newId ≠ "") :
    jsGt JSNum.nan (JSNum.num 100) = false ∧
    jsLt JSNum.nan (JSNum.num 0) = false ∧
    ¬ specInRange JSNum.nan ∧
    (s.addItem ⟨newId, JSNum.nan⟩).error = none ∧
    (s.addItem ⟨newId, JSNum.nan⟩).state.chartData =
      s.chartData ++ [⟨newId, JSNum.nan⟩] := by
  have hok : ChartState.pushValidItem s.chartData ⟨newId, JSNum.nan⟩ =
      Except.ok (s.chartData ++ [⟨newId, JSNum.nan⟩]) := by
    apply ChartState.pushValidItem_ok_of
    · rintro ⟨x, hx, hxe⟩
      exact h1 x hx hxe
    · exact h2
    · rfl
    · rfl
  rw [ChartState.addItem_of_ok hok]
  exact ⟨rfl, rfl, by unfold specInRange; decide, rfl, rfl⟩

/-- Witness for C10: a NaN value under the fresh id n is accepted by a
fresh container. -/
theorem range_check_accepts_nan_wit :
    (∀ x ∈ ChartState.init.chartData, x.id ≠ "n") ∧ jsTrim "n" ≠ "" ∧
    (ChartState.init.addItem ⟨"n", JSNum.nan⟩).error = none ∧
    (ChartState.init.addItem ⟨"n", JSNum.nan⟩).state.chartData =
      ChartState.init.chartData ++ [⟨"n", JSNum.nan⟩] :=
  ⟨by decide, by decide,
   (range_check_accepts_nan ChartState.init "n" (by decide) (by decide)).2.2.2.1,
   (range_check_accepts_nan ChartState.init "n" (by decide) (by decide)).2.2.2.2⟩
